import Mathlib

/-!
Verification development for the SARIF merge utility
(`plugins/static-analysis/skills/semgrep/scripts/merge_sarif.py`).

The embedding mirrors the Python source: JSON dictionaries appearing in a
SARIF document are modelled as structures whose optional keys are `Option`
fields (a `none` models an absent key, and for the run-level `tool` key it
also models a falsy empty dictionary, which the source treats identically
in both places it is consulted); the opaque extra keys each dictionary may
carry are modelled by a `payload` field preserved verbatim.  Python's
`dict` (insertion ordered) is modelled as an association list appended at
the end on insertion of a new key; Python's `set` is modelled as a list
used only through membership.  `sorted` on paths is modelled by a stable
insertion sort on the file-name strings.
-/

/-- `physicalLocation.region` dictionary: only `startLine` is consulted. -/
structure Region where
  startLine : Option Int
  deriving DecidableEq

/-- `physicalLocation.artifactLocation` dictionary: only `uri` is consulted. -/
structure ArtifactLocation where
  uri : Option String
  deriving DecidableEq

/-- `locations[0].physicalLocation` dictionary. -/
structure PhysicalLocation where
  artifactLocation : Option ArtifactLocation
  region : Option Region
  deriving DecidableEq

/-- One entry of a result's `locations` list. -/
structure Location where
  physicalLocation : Option PhysicalLocation
  deriving DecidableEq

/-- One SARIF result (finding).  `payload` stands for every key other than
`ruleId` and `locations`, preserved verbatim by the merger. -/
structure SarifResult where
  ruleId : Option String
  locations : List Location
  payload : String
  deriving DecidableEq

/-- One rule definition from `tool.driver.rules`.  `payload` stands for the
descriptive fields other than `id`. -/
structure Rule where
  id : Option String
  payload : String
  deriving DecidableEq

/-- A `tool.driver` dictionary. -/
structure Driver where
  name : String
  rules : List Rule
  payload : String
  deriving DecidableEq

/-- A run's `tool` dictionary (always carries a `driver` in practice; a run
whose `tool` key is absent or falsy is modelled by `Run.tool = none`). -/
structure Tool where
  driver : Driver
  payload : String
  deriving DecidableEq

/-- One entry of a document's `runs` list. -/
structure Run where
  tool : Option Tool
  results : List SarifResult
  payload : String
  deriving DecidableEq

/-- A SARIF document (`version`, `$schema`, `runs`). -/
structure SarifDoc where
  version : String
  schema : String
  runs : List Run
  deriving DecidableEq

/-- One input file: its path string (used for sorting) and its parsed
content, where `none` models a `json.JSONDecodeError` on `read_text`. -/
structure InputFile where
  name : String
  content : Option SarifDoc
  deriving DecidableEq

/-- The dedup key `(rule_id, uri, start_line)`. -/
abbrev DedupKey := String × String × Int

/-- Lines 123-131 of the source: `rule_id = result.get("ruleId", "")`,
then from the first listed location (if any)
`uri = phys.get("artifactLocation", {}).get("uri", "")` and
`start_line = phys.get("region", {}).get("startLine", 0)`. -/
def resultKey (r : SarifResult) : DedupKey :=
  let rid := r.ruleId.getD ""
  match r.locations with
  | [] => (rid, "", 0)
  | loc :: _ =>
    let phys := loc.physicalLocation
    let uri := ((phys.bind (fun p => p.artifactLocation)).bind (fun a => a.uri)).getD ""
    let startLine := ((phys.bind (fun p => p.region)).bind (fun g => g.startLine)).getD 0
    (rid, uri, startLine)

/-- The accumulating state of `merge_sarif_pure_python`'s loop:
`seen_rules` (insertion-ordered dict), `all_results`, `seen_results` (set),
`tool_info`, `skipped_files`. -/
structure MergeState where
  seenRules : List (String × Rule)
  allResults : List SarifResult
  seenResults : List DedupKey
  toolInfo : Option Tool
  skippedFiles : List String
  deriving DecidableEq

def initState : MergeState :=
  { seenRules := [], allResults := [], seenResults := [], toolInfo := none, skippedFiles := [] }

/-- Lines 117-120: `rule_id = rule.get("id", "")`;
`if rule_id and rule_id not in seen_rules: seen_rules[rule_id] = rule`. -/
def addRule (seen : List (String × Rule)) (r : Rule) : List (String × Rule) :=
  if r.id.getD "" ≠ "" ∧ r.id.getD "" ∉ seen.map Prod.fst then
    seen ++ [(r.id.getD "", r)]
  else seen

/-- Lines 122-135: compute the dedup key; skip the result when the key was
seen, otherwise record the key and append the result. -/
def addResult (s : MergeState) (r : SarifResult) : MergeState :=
  if resultKey r ∈ s.seenResults then s
  else { s with seenResults := resultKey r :: s.seenResults,
                allResults := s.allResults ++ [r] }

/-- Line 116-117: `run.get("tool", {}).get("driver", {}).get("rules", [])`. -/
def runRules (run : Run) : List Rule :=
  (run.tool.map (fun t => t.driver.rules)).getD []

/-- Lines 112-135, body of `for run in data.get("runs", [])`. -/
def processRun (s : MergeState) (run : Run) : MergeState :=
  let s1 :=
    match s.toolInfo, run.tool with
    | none, some t => { s with toolInfo := some t }
    | _, _ => s
  let s2 := { s1 with seenRules := (runRules run).foldl addRule s1.seenRules }
  run.results.foldl addResult s2

/-- Lines 104-135, body of `for sarif_file in sorted(sarif_files)`: a parse
failure records the file as skipped; otherwise every run is processed. -/
def processFile (s : MergeState) (f : InputFile) : MergeState :=
  match f.content with
  | none => { s with skippedFiles := s.skippedFiles ++ [f.name] }
  | some d => d.runs.foldl processRun s

/-- `sorted(sarif_files)`: a stable sort by the path string. -/
def sortFiles (files : List InputFile) : List InputFile :=
  List.insertionSort (fun a b => a.name ≤ b.name) files

/-- Line 139's placeholder `{"driver": {"name": "semgrep", "rules": []}}`. -/
def placeholderTool : Tool :=
  { driver := { name := "semgrep", rules := [], payload := "" }, payload := "" }

/-- The loop of `merge_sarif_pure_python` over the sorted input files. -/
def mergeState (files : List InputFile) : MergeState :=
  (sortFiles files).foldl processFile initState

/-- `merge_sarif_pure_python` (lines 90-154).  Returns the merged document
together with the recorded `skipped_files` (reported on stderr). -/
def merge_sarif_pure_python (files : List InputFile) : SarifDoc × List String :=
  let s := mergeState files
  let runs :=
    if s.allResults ≠ [] then
      let t := s.toolInfo.getD placeholderTool
      [{ tool := some { t with driver := { t.driver with rules := s.seenRules.map Prod.snd } },
         results := s.allResults, payload := "" }]
    else []
  ({ version := "2.1.0",
     schema := "https://json.schemastore.org/sarif-2.1.0.json",
     runs := runs },
   s.skippedFiles)

/-! ### Specification-side descriptions of the merge

These follow the spec's words ("first occurrence wins", "order preserved",
"inputs sorted by name, within a file the order findings appear") and are
related to the fold above by the theorems below. -/

/-- The runs contributed by one input file (a parse failure contributes
nothing). -/
def docRuns (f : InputFile) : List Run :=
  match f.content with
  | none => []
  | some d => d.runs

/-- All runs of a list of input files, in processing order. -/
def allRuns (files : List InputFile) : List Run :=
  files.flatMap docRuns

/-- All rule definitions of a list of input files, in processing order. -/
def allRules (files : List InputFile) : List Rule :=
  (allRuns files).flatMap runRules

/-- The findings of one input file, in the order they appear in its runs. -/
def docResults (f : InputFile) : List SarifResult :=
  (docRuns f).flatMap (fun r => r.results)

/-- All findings of a list of input files, in processing order. -/
def allInputResults (files : List InputFile) : List SarifResult :=
  files.flatMap docResults

/-- Keep the first finding for each dedup key (keys in `seen` count as
already taken). -/
def dedupFirst (seen : List DedupKey) : List SarifResult → List SarifResult
  | [] => []
  | r :: rs =>
    if resultKey r ∈ seen then dedupFirst seen rs
    else r :: dedupFirst (resultKey r :: seen) rs

/-- The set of keys taken after scanning a finding list. -/
def addKeys (seen : List DedupKey) : List SarifResult → List DedupKey
  | [] => seen
  | r :: rs =>
    if resultKey r ∈ seen then addKeys seen rs
    else addKeys (resultKey r :: seen) rs

/-- Keep the first rule definition for each nonempty identifier. -/
def dedupRules (seen : List String) : List Rule → List Rule
  | [] => []
  | r :: rs =>
    if r.id.getD "" ≠ "" ∧ r.id.getD "" ∉ seen then
      r :: dedupRules (r.id.getD "" :: seen) rs
    else dedupRules seen rs

/-- The identifiers taken after scanning a rule list. -/
def addRuleKeys (seen : List String) : List Rule → List String
  | [] => seen
  | r :: rs =>
    if r.id.getD "" ≠ "" ∧ r.id.getD "" ∉ seen then
      addRuleKeys (r.id.getD "" :: seen) rs
    else addRuleKeys seen rs

/-- The findings of a merged document. -/
def mergedFindings (d : SarifDoc) : List SarifResult :=
  d.runs.flatMap (fun r => r.results)

/-- The rule lists of a merged document's runs. -/
def mergedRuleList (d : SarifDoc) : List Rule :=
  d.runs.flatMap runRules

/-! ### The command-line driver (`main`, lines 157-199)

`main` performs I/O; it is embedded as a function from an abstract
environment (the argument count, whether the input path is a directory,
the collected input files, and the outcome of the two subprocess
interactions, which are opaque externals) to an exit code and the ordered
trace of observable events: messages on stdout, messages on stderr, the
`mkdir` of the output parent, and writes to the output file. -/

/-- Outcome of the `has_sarif_multitool` probe (lines 28-46): `npx` absent,
the version query timing out, raising `FileNotFoundError` or `OSError`, or
running to completion with a zero / nonzero exit. -/
inductive ProbeOutcome where
  | noNpx
  | probeTimeout
  | probeNotFound
  | probeOsError (msg : String)
  | ran (exitZero : Bool)
  deriving DecidableEq

/-- Outcome of the external merge attempt (lines 49-87). -/
inductive MtOutcome where
  | mergeFailed (stderrText : String)
  | mergeTimeout (msg : String)
  | invalidJson (msg : String)
  | mergeNotFound (msg : String)
  | mergeOsError (typeName msg : String)
  | merged (doc : SarifDoc)
  deriving DecidableEq

/-- One observable step of `main`. -/
inductive Event where
  | outMsg (msg : String)
  | errMsg (msg : String)
  | mkdirParent
  | writeOutput (doc : SarifDoc)
  deriving DecidableEq

/-- `has_sarif_multitool` (lines 28-46): every failure is non-fatal and
yields `False`; the timeout and `OSError` branches print a warning to
stderr. -/
def has_sarif_multitool : ProbeOutcome → Bool × List Event
  | .noNpx => (false, [])
  | .probeTimeout => (false, [.errMsg "Warning: SARIF Multitool version check timed out"])
  | .probeNotFound => (false, [])
  | .probeOsError m => (false, [.errMsg ("Warning: Failed to check SARIF Multitool: " ++ m)])
  | .ran z => (z, [])

/-- `merge_with_multitool` (lines 49-87): returns `none` on an empty file
list and on every failure, each failure printing one stderr message; on
success the tool's output document is returned.  (The temporary file it
uses is not the output path and is always removed, so it contributes no
event.) -/
def merge_with_multitool (sarif_files : List InputFile) (o : MtOutcome) :
    Option SarifDoc × List Event :=
  if sarif_files.isEmpty then (none, [])
  else
    match o with
    | .mergeFailed t => (none, [.errMsg ("SARIF Multitool merge failed: " ++ t)])
    | .mergeTimeout m => (none, [.errMsg ("SARIF Multitool timed out: " ++ m)])
    | .invalidJson m => (none, [.errMsg ("SARIF Multitool produced invalid JSON: " ++ m)])
    | .mergeNotFound m => (none, [.errMsg ("SARIF Multitool not found: " ++ m)])
    | .mergeOsError ty m => (none, [.errMsg ("SARIF Multitool OS error (" ++ ty ++ "): " ++ m)])
    | .merged d => (some d, [])

/-- The abstract environment of one invocation: `argv[0]`, `len(sys.argv)`,
the two path arguments, whether `raw_dir.is_dir()`, the files matched by
`raw_dir.glob("*.sarif")`, and the subprocess outcomes. -/
structure Env where
  argv0 : String
  argc : Nat
  rawDir : String
  outputFile : String
  isDir : Bool
  files : List InputFile
  probe : ProbeOutcome
  mt : MtOutcome
  deriving DecidableEq

/-- The stderr messages `merge_sarif_pure_python` prints: one warning per
unparsable file while processing (lines 107-108), then the summary block
(lines 145-152). -/
def pureMergeEvents (files : List InputFile) : List Event :=
  ((merge_sarif_pure_python files).2.map
      (fun n => Event.errMsg ("Warning: Failed to parse " ++ n))) ++
  (if (merge_sarif_pure_python files).2.isEmpty then []
   else
     Event.errMsg ("WARNING: " ++ toString (merge_sarif_pure_python files).2.length ++
         " of " ++ toString files.length ++
         " SARIF files could not be parsed. Results may be incomplete.") ::
       (merge_sarif_pure_python files).2.map (fun n => Event.errMsg ("  Skipped: " ++ n)))

/-- The document the multitool path yields, if it is taken and succeeds
(lines 181-186). -/
def viaToolOf (e : Env) : Option SarifDoc :=
  if (has_sarif_multitool e.probe).1 then (merge_with_multitool (sortFiles e.files) e.mt).1
  else none

/-- The document `main` ends up writing: the multitool output when that
path succeeded, otherwise the pure-Python merge (lines 181-190). -/
def mergedDocOf (e : Env) : SarifDoc :=
  match viaToolOf e with
  | some d => d
  | none => (merge_sarif_pure_python e.files).1

/-- Events of the multitool attempt (lines 182-186): the progress message,
the attempt's own stderr, and the success message when it returned a
document.  All of `main`'s own messages here go to stdout (plain `print`). -/
def toolPhaseEvents (e : Env) : List Event :=
  if (has_sarif_multitool e.probe).1 then
    Event.outMsg "Using SARIF Multitool for merge..." ::
      ((merge_with_multitool (sortFiles e.files) e.mt).2 ++
        (match (merge_with_multitool (sortFiles e.files) e.mt).1 with
         | some _ => [Event.outMsg "SARIF Multitool merge successful"]
         | none => []))
  else []

/-- Events of the fallback (lines 188-190): taken exactly when the
multitool path yielded nothing. -/
def pythonPhaseEvents (e : Env) : List Event :=
  match viaToolOf e with
  | some _ => []
  | none =>
    Event.outMsg "Using pure Python merge (SARIF Multitool not available or failed)" ::
      pureMergeEvents e.files

/-- Line 171's message — printed with a plain `print`, i.e. on stdout. -/
def foundMsg (e : Env) : String :=
  "Found " ++ toString (sortFiles e.files).length ++ " SARIF files to merge in " ++ e.rawDir

/-- Line 193's message: the total finding count across all runs of the
merged document. -/
def countMsgOf (e : Env) : String :=
  "Merged SARIF contains " ++
    toString (((mergedDocOf e).runs.map (fun r => r.results.length)).sum) ++ " findings"

/-- The event trace of a non-fatal invocation (lines 171-197). -/
def successTrace (e : Env) : List Event :=
  [Event.outMsg (foundMsg e), Event.mkdirParent] ++ (has_sarif_multitool e.probe).2 ++
    toolPhaseEvents e ++ pythonPhaseEvents e ++
    [Event.outMsg (countMsgOf e), Event.writeOutput (mergedDocOf e),
     Event.outMsg ("Written to " ++ e.outputFile)]

/-- `main` (lines 157-199): the exit code and the event trace. -/
def mainRun (e : Env) : Nat × List Event :=
  if e.argc ≠ 3 then
    (1, [Event.errMsg ("Usage: " ++ e.argv0 ++ " RAW_DIR OUTPUT_FILE")])
  else if e.isDir = false then
    (1, [Event.errMsg ("Error: " ++ e.rawDir ++ " is not a directory")])
  else if (sortFiles e.files).isEmpty then
    (1, [Event.outMsg (foundMsg e), Event.errMsg "No SARIF files found, nothing to merge"])
  else (0, successTrace e)

/-- The messages a trace puts on stdout. -/
def stdoutOf (evs : List Event) : List String :=
  evs.filterMap (fun ev => match ev with | .outMsg m => some m | _ => none)

/-- The documents a trace writes to the output file. -/
def writesOf (evs : List Event) : List SarifDoc :=
  evs.filterMap (fun ev => match ev with | .writeOutput d => some d | _ => none)

/-- The six progress messages `main` prints with a plain `print`. -/
def progressMessages (e : Env) : List String :=
  [foundMsg e,
   "Using SARIF Multitool for merge...",
   "SARIF Multitool merge successful",
   "Using pure Python merge (SARIF Multitool not available or failed)",
   countMsgOf e,
   "Written to " ++ e.outputFile]

/-! ### Concrete inputs used by counterexamples and witnesses -/

/-- A rule definition with no `id` key: `rule.get("id", "")` yields `""`. -/
def ruleNoId : Rule := { id := none, payload := "shortDescription A" }

def toolWithRuleNoId : Tool :=
  { driver := { name := "semgrep", rules := [ruleNoId], payload := "" }, payload := "" }

def fileRuleNoId : InputFile :=
  { name := "a.sarif",
    content := some
      { version := "2.1.0", schema := "sarif-2.1.0",
        runs := [{ tool := some toolWithRuleNoId,
                   results := [{ ruleId := some "r1", locations := [], payload := "m1" }],
                   payload := "" }] } }

def locApp : Location :=
  { physicalLocation := some
      { artifactLocation := some { uri := some "src/app.py" },
        region := some { startLine := some 10 } } }

def findingA : SarifResult := { ruleId := some "rA", locations := [locApp], payload := "pa" }

def findingB : SarifResult := { ruleId := some "rB", locations := [], payload := "pb" }

def toolSemgrep : Tool :=
  { driver := { name := "semgrep", rules := [], payload := "" }, payload := "" }

def docA : SarifDoc :=
  { version := "2.1.0", schema := "sarif-2.1.0",
    runs := [{ tool := some toolSemgrep, results := [findingA], payload := "" }] }

def docB : SarifDoc :=
  { version := "2.1.0", schema := "sarif-2.1.0",
    runs := [{ tool := some toolSemgrep, results := [findingB], payload := "" }] }

def fileA : InputFile := { name := "a.sarif", content := some docA }

def fileB : InputFile := { name := "b.sarif", content := some docB }

def fileBad : InputFile := { name := "bad.sarif", content := none }

def emptyDoc : SarifDoc := { version := "2.1.0", schema := "sarif-2.1.0", runs := [] }

/-- A well-formed invocation with one parsable input and no multitool. -/
def envStdout : Env :=
  { argv0 := "merge_sarif.py", argc := 3, rawDir := "raw",
    outputFile := "results/results.sarif", isDir := true,
    files := [{ name := "a.sarif", content := some emptyDoc }],
    probe := .noNpx, mt := .merged emptyDoc }

/-- A well-formed invocation with one corrupted input among parsable ones. -/
def envMixed : Env :=
  { argv0 := "merge_sarif.py", argc := 3, rawDir := "raw",
    outputFile := "results/results.sarif", isDir := true,
    files := [fileBad, fileA], probe := .noNpx, mt := .merged emptyDoc }

/-- A well-formed invocation where the probe times out and the multitool
merge fails, exercising the fallback. -/
def envFallback : Env :=
  { argv0 := "merge_sarif.py", argc := 3, rawDir := "raw",
    outputFile := "results/results.sarif", isDir := true,
    files := [fileA], probe := .probeTimeout, mt := .mergeFailed "boom" }

/-- Spec side: the representative tool descriptor — the first one
encountered across all runs of the sorted inputs, or the placeholder. -/
def representativeTool (files : List InputFile) : Tool :=
  ((allRuns (sortFiles files)).findSome? (fun r => r.tool)).getD placeholderTool

/-- Spec side: the single emitted run — the representative tool descriptor
with its rule list replaced by the deduplicated rule set, and the
deduplicated, order-preserved finding list. -/
def mergedRun (files : List InputFile) : Run :=
  { tool := some { representativeTool files with
      driver := { (representativeTool files).driver with
        rules := dedupRules [] (allRules (sortFiles files)) } },
    results := dedupFirst [] (allInputResults (sortFiles files)),
    payload := "" }

/-! ### Relating the fold to the specification-side descriptions -/

/-- `a` if present, else `b` (the capture rule for `tool_info`). -/
def orFirst (a b : Option Tool) : Option Tool :=
  match a with
  | some t => some t
  | none => b

lemma orFirst_none_left (b : Option Tool) : orFirst none b = b := rfl

lemma orFirst_none_right (a : Option Tool) : orFirst a none = a := by
  cases a <;> rfl

lemma orFirst_assoc (a b c : Option Tool) :
    orFirst (orFirst a b) c = orFirst a (orFirst b c) := by
  cases a <;> rfl

lemma findSome?_tool_append (l1 l2 : List Run) :
    (l1 ++ l2).findSome? (fun r => r.tool) =
      orFirst (l1.findSome? (fun r => r.tool)) (l2.findSome? (fun r => r.tool)) := by
  induction l1 with
  | nil => rfl
  | cons r l1 ih =>
    cases h : r.tool with
    | none => simp [List.findSome?_cons, h, ih, orFirst]
    | some t => simp [List.findSome?_cons, h, orFirst]

lemma addKeys_cons_mem (seen : List DedupKey) (r : SarifResult) (rs : List SarifResult)
    (h : resultKey r ∈ seen) : addKeys seen (r :: rs) = addKeys seen rs := by
  simp only [addKeys, if_pos h]

lemma addKeys_cons_not_mem (seen : List DedupKey) (r : SarifResult) (rs : List SarifResult)
    (h : resultKey r ∉ seen) : addKeys seen (r :: rs) = addKeys (resultKey r :: seen) rs := by
  simp only [addKeys, if_neg h]

lemma dedupFirst_cons_mem (seen : List DedupKey) (r : SarifResult) (rs : List SarifResult)
    (h : resultKey r ∈ seen) : dedupFirst seen (r :: rs) = dedupFirst seen rs := by
  simp only [dedupFirst, if_pos h]

lemma dedupFirst_cons_not_mem (seen : List DedupKey) (r : SarifResult) (rs : List SarifResult)
    (h : resultKey r ∉ seen) :
    dedupFirst seen (r :: rs) = r :: dedupFirst (resultKey r :: seen) rs := by
  simp only [dedupFirst, if_neg h]

lemma addKeys_append (seen : List DedupKey) (xs ys : List SarifResult) :
    addKeys seen (xs ++ ys) = addKeys (addKeys seen xs) ys := by
  induction xs generalizing seen with
  | nil => simp [addKeys]
  | cons r xs ih =>
    by_cases h : resultKey r ∈ seen
    · rw [List.cons_append, addKeys_cons_mem _ _ _ h, addKeys_cons_mem _ _ _ h, ih]
    · rw [List.cons_append, addKeys_cons_not_mem _ _ _ h, addKeys_cons_not_mem _ _ _ h, ih]

lemma dedupFirst_append (seen : List DedupKey) (xs ys : List SarifResult) :
    dedupFirst seen (xs ++ ys) =
      dedupFirst seen xs ++ dedupFirst (addKeys seen xs) ys := by
  induction xs generalizing seen with
  | nil => simp [dedupFirst, addKeys]
  | cons r xs ih =>
    by_cases h : resultKey r ∈ seen
    · rw [List.cons_append, dedupFirst_cons_mem _ _ _ h, dedupFirst_cons_mem _ _ _ h,
        addKeys_cons_mem _ _ _ h, ih]
    · rw [List.cons_append, dedupFirst_cons_not_mem _ _ _ h, dedupFirst_cons_not_mem _ _ _ h,
        addKeys_cons_not_mem _ _ _ h, ih, List.cons_append]

lemma dedupRules_congr (rl : List Rule) (s1 s2 : List String)
    (h : ∀ i, i ∈ s1 ↔ i ∈ s2) : dedupRules s1 rl = dedupRules s2 rl := by
  induction rl generalizing s1 s2 with
  | nil => rfl
  | cons r rl ih =>
    by_cases hm : r.id.getD "" ≠ "" ∧ r.id.getD "" ∉ s1
    · have hm2 : r.id.getD "" ≠ "" ∧ r.id.getD "" ∉ s2 :=
        ⟨hm.1, fun hc => hm.2 ((h _).mpr hc)⟩
      rw [show dedupRules s1 (r :: rl) = r :: dedupRules (r.id.getD "" :: s1) rl from by
          simp only [dedupRules, if_pos hm],
        show dedupRules s2 (r :: rl) = r :: dedupRules (r.id.getD "" :: s2) rl from by
          simp only [dedupRules, if_pos hm2]]
      rw [ih]
      intro i
      simp only [List.mem_cons, h i]
    · have hm2 : ¬(r.id.getD "" ≠ "" ∧ r.id.getD "" ∉ s2) := by
        intro hc
        exact hm ⟨hc.1, fun hx => hc.2 ((h _).mp hx)⟩
      rw [show dedupRules s1 (r :: rl) = dedupRules s1 rl from by
          simp only [dedupRules, if_neg hm],
        show dedupRules s2 (r :: rl) = dedupRules s2 rl from by
          simp only [dedupRules, if_neg hm2]]
      exact ih s1 s2 h

lemma addRuleKeys_cons_pos (seen : List String) (r : Rule) (rs : List Rule)
    (h : r.id.getD "" ≠ "" ∧ r.id.getD "" ∉ seen) :
    addRuleKeys seen (r :: rs) = addRuleKeys (r.id.getD "" :: seen) rs := by
  simp only [addRuleKeys, if_pos h]

lemma addRuleKeys_cons_neg (seen : List String) (r : Rule) (rs : List Rule)
    (h : ¬(r.id.getD "" ≠ "" ∧ r.id.getD "" ∉ seen)) :
    addRuleKeys seen (r :: rs) = addRuleKeys seen rs := by
  simp only [addRuleKeys, if_neg h]

lemma dedupRules_cons_pos (seen : List String) (r : Rule) (rs : List Rule)
    (h : r.id.getD "" ≠ "" ∧ r.id.getD "" ∉ seen) :
    dedupRules seen (r :: rs) = r :: dedupRules (r.id.getD "" :: seen) rs := by
  simp only [dedupRules, if_pos h]

lemma dedupRules_cons_neg (seen : List String) (r : Rule) (rs : List Rule)
    (h : ¬(r.id.getD "" ≠ "" ∧ r.id.getD "" ∉ seen)) :
    dedupRules seen (r :: rs) = dedupRules seen rs := by
  simp only [dedupRules, if_neg h]

lemma addRuleKeys_append (seen : List String) (xs ys : List Rule) :
    addRuleKeys seen (xs ++ ys) = addRuleKeys (addRuleKeys seen xs) ys := by
  induction xs generalizing seen with
  | nil => simp [addRuleKeys]
  | cons r xs ih =>
    by_cases h : r.id.getD "" ≠ "" ∧ r.id.getD "" ∉ seen
    · rw [List.cons_append, addRuleKeys_cons_pos _ _ _ h, addRuleKeys_cons_pos _ _ _ h, ih]
    · rw [List.cons_append, addRuleKeys_cons_neg _ _ _ h, addRuleKeys_cons_neg _ _ _ h, ih]

lemma dedupRules_append (seen : List String) (xs ys : List Rule) :
    dedupRules seen (xs ++ ys) =
      dedupRules seen xs ++ dedupRules (addRuleKeys seen xs) ys := by
  induction xs generalizing seen with
  | nil => simp [dedupRules, addRuleKeys]
  | cons r xs ih =>
    by_cases h : r.id.getD "" ≠ "" ∧ r.id.getD "" ∉ seen
    · rw [List.cons_append, dedupRules_cons_pos _ _ _ h, dedupRules_cons_pos _ _ _ h,
        addRuleKeys_cons_pos _ _ _ h, ih, List.cons_append]
    · rw [List.cons_append, dedupRules_cons_neg _ _ _ h, dedupRules_cons_neg _ _ _ h,
        addRuleKeys_cons_neg _ _ _ h, ih]

lemma mem_addRuleKeys (xs : List Rule) (seen : List String) (i : String) :
    i ∈ addRuleKeys seen xs ↔
      i ∈ seen ∨ i ∈ (dedupRules seen xs).map (fun r => r.id.getD "") := by
  induction xs generalizing seen with
  | nil => simp [addRuleKeys, dedupRules]
  | cons r xs ih =>
    by_cases h : r.id.getD "" ≠ "" ∧ r.id.getD "" ∉ seen
    · rw [addRuleKeys_cons_pos _ _ _ h, dedupRules_cons_pos _ _ _ h, ih]
      simp only [List.map_cons, List.mem_cons]
      tauto
    · rw [addRuleKeys_cons_neg _ _ _ h, dedupRules_cons_neg _ _ _ h, ih]

lemma foldl_addResult_spec (rs : List SarifResult) (s : MergeState) :
    rs.foldl addResult s =
      { s with allResults := s.allResults ++ dedupFirst s.seenResults rs,
               seenResults := addKeys s.seenResults rs } := by
  induction rs generalizing s with
  | nil => simp [dedupFirst, addKeys]
  | cons r rs ih =>
    rw [List.foldl_cons]
    by_cases h : resultKey r ∈ s.seenResults
    · rw [show addResult s r = s from by simp [addResult, h]]
      rw [ih]
      simp [dedupFirst, addKeys, h]
    · rw [show addResult s r =
          { s with seenResults := resultKey r :: s.seenResults,
                   allResults := s.allResults ++ [r] } from by simp [addResult, h]]
      rw [ih]
      simp [dedupFirst, addKeys, h]

lemma foldl_addRule_spec (rl : List Rule) (seen : List (String × Rule)) :
    rl.foldl addRule seen =
      seen ++ (dedupRules (seen.map Prod.fst) rl).map (fun r => (r.id.getD "", r)) := by
  induction rl generalizing seen with
  | nil => simp [dedupRules]
  | cons r rl ih =>
    rw [List.foldl_cons]
    by_cases h : r.id.getD "" ≠ "" ∧ r.id.getD "" ∉ seen.map Prod.fst
    · rw [show addRule seen r = seen ++ [(r.id.getD "", r)] from by
        unfold addRule; rw [if_pos h]]
      rw [ih]
      have hc : dedupRules ((seen ++ [(r.id.getD "", r)]).map Prod.fst) rl
          = dedupRules (r.id.getD "" :: seen.map Prod.fst) rl := by
        apply dedupRules_congr
        intro i
        simp only [List.map_append, List.map_cons, List.map_nil, List.mem_append,
          List.mem_cons, List.mem_singleton, List.not_mem_nil, or_false]
        tauto
      rw [hc]
      rw [dedupRules_cons_pos _ _ _ h]
      simp only [List.map_cons, List.append_assoc, List.singleton_append]
    · rw [show addRule seen r = seen from by unfold addRule; rw [if_neg h]]
      rw [ih]
      rw [dedupRules_cons_neg _ _ _ h]

lemma processRun_spec (run : Run) (s : MergeState) :
    processRun s run =
      { s with toolInfo := orFirst s.toolInfo run.tool,
               seenRules := s.seenRules ++
                 (dedupRules (s.seenRules.map Prod.fst) (runRules run)).map
                   (fun r => (r.id.getD "", r)),
               allResults := s.allResults ++ dedupFirst s.seenResults run.results,
               seenResults := addKeys s.seenResults run.results } := by
  unfold processRun
  cases hti : s.toolInfo with
  | some t =>
    cases htr : run.tool <;>
      simp [hti, htr, foldl_addRule_spec, foldl_addResult_spec, orFirst]
  | none =>
    cases htr : run.tool <;>
      simp [hti, htr, foldl_addRule_spec, foldl_addResult_spec, orFirst]

lemma foldl_processRun_spec (runs : List Run) (s : MergeState) :
    runs.foldl processRun s =
      { s with toolInfo := orFirst s.toolInfo (runs.findSome? (fun r => r.tool)),
               seenRules := s.seenRules ++
                 (dedupRules (s.seenRules.map Prod.fst) (runs.flatMap runRules)).map
                   (fun r => (r.id.getD "", r)),
               allResults := s.allResults ++
                 dedupFirst s.seenResults (runs.flatMap (fun r => r.results)),
               seenResults := addKeys s.seenResults (runs.flatMap (fun r => r.results)) } := by
  induction runs generalizing s with
  | nil => simp [dedupFirst, dedupRules, addKeys, orFirst_none_right]
  | cons run runs ih =>
    rw [List.foldl_cons, processRun_spec, ih]
    have hrules : dedupRules
          ((s.seenRules ++ (dedupRules (s.seenRules.map Prod.fst) (runRules run)).map
            (fun r => (r.id.getD "", r))).map Prod.fst) (runs.flatMap runRules)
        = dedupRules (addRuleKeys (s.seenRules.map Prod.fst) (runRules run))
            (runs.flatMap runRules) := by
      apply dedupRules_congr
      intro i
      rw [mem_addRuleKeys]
      simp [List.map_map, Function.comp]
    have htool : (run :: runs).findSome? (fun r => r.tool) =
        orFirst run.tool (runs.findSome? (fun r => r.tool)) := by
      cases h : run.tool <;> simp [List.findSome?_cons, h, orFirst]
    rw [hrules, htool]
    simp only [List.flatMap_cons, dedupRules_append, dedupFirst_append, addKeys_append,
      orFirst_assoc, List.map_append, List.append_assoc]

lemma processFile_spec (f : InputFile) (s : MergeState) :
    processFile s f =
      { s with toolInfo := orFirst s.toolInfo ((docRuns f).findSome? (fun r => r.tool)),
               seenRules := s.seenRules ++
                 (dedupRules (s.seenRules.map Prod.fst) ((docRuns f).flatMap runRules)).map
                   (fun r => (r.id.getD "", r)),
               allResults := s.allResults ++ dedupFirst s.seenResults (docResults f),
               seenResults := addKeys s.seenResults (docResults f),
               skippedFiles := s.skippedFiles ++
                 (match f.content with | none => [f.name] | some _ => []) } := by
  cases hc : f.content with
  | none =>
    simp [processFile, hc, docRuns, docResults, dedupFirst, dedupRules, addKeys,
      orFirst_none_right]
  | some d =>
    simp [processFile, hc, docRuns, docResults, foldl_processRun_spec]

lemma foldl_processFile_spec (files : List InputFile) (s : MergeState) :
    files.foldl processFile s =
      { s with toolInfo := orFirst s.toolInfo ((allRuns files).findSome? (fun r => r.tool)),
               seenRules := s.seenRules ++
                 (dedupRules (s.seenRules.map Prod.fst) (allRules files)).map
                   (fun r => (r.id.getD "", r)),
               allResults := s.allResults ++ dedupFirst s.seenResults (allInputResults files),
               seenResults := addKeys s.seenResults (allInputResults files),
               skippedFiles := s.skippedFiles ++ files.filterMap
                 (fun f => match f.content with | none => some f.name | some _ => none) } := by
  induction files generalizing s with
  | nil => simp [allRuns, allRules, allInputResults, dedupFirst, dedupRules, addKeys,
      orFirst_none_right]
  | cons f files ih =>
    rw [List.foldl_cons, processFile_spec, ih]
    have hrules : dedupRules
          ((s.seenRules ++ (dedupRules (s.seenRules.map Prod.fst)
              ((docRuns f).flatMap runRules)).map (fun r => (r.id.getD "", r))).map Prod.fst)
            (allRules files)
        = dedupRules (addRuleKeys (s.seenRules.map Prod.fst) ((docRuns f).flatMap runRules))
            (allRules files) := by
      apply dedupRules_congr
      intro i
      rw [mem_addRuleKeys]
      simp [List.map_map, Function.comp]
    rw [hrules]
    have hruns : allRuns (f :: files) = docRuns f ++ allRuns files := by
      simp [allRuns]
    have hallrules : allRules (f :: files) =
        (docRuns f).flatMap runRules ++ allRules files := by
      simp [allRules, hruns]
    have hallres : allInputResults (f :: files) = docResults f ++ allInputResults files := by
      simp [allInputResults]
    rw [hruns, hallrules, hallres, findSome?_tool_append]
    cases hc : f.content <;>
      simp [hc, dedupRules_append, dedupFirst_append, addKeys_append, orFirst_assoc,
        List.map_append, List.append_assoc]

/-- The whole accumulating state of `merge_sarif_pure_python`, described by
the specification-side functions. -/
lemma mergeState_spec (files : List InputFile) :
    mergeState files =
      { seenRules := (dedupRules [] (allRules (sortFiles files))).map
          (fun r => (r.id.getD "", r)),
        allResults := dedupFirst [] (allInputResults (sortFiles files)),
        seenResults := addKeys [] (allInputResults (sortFiles files)),
        toolInfo := (allRuns (sortFiles files)).findSome? (fun r => r.tool),
        skippedFiles := (sortFiles files).filterMap
          (fun f => match f.content with | none => some f.name | some _ => none) } := by
  unfold mergeState
  rw [foldl_processFile_spec]
  simp [initState, orFirst]

/-! ### The merged document in specification terms -/

lemma mergedFindings_merge (files : List InputFile) :
    mergedFindings (merge_sarif_pure_python files).1 =
      dedupFirst [] (allInputResults (sortFiles files)) := by
  unfold merge_sarif_pure_python mergedFindings
  rw [mergeState_spec]
  by_cases h : dedupFirst [] (allInputResults (sortFiles files)) = []
  · simp [h]
  · simp [h]

lemma runs_merge (files : List InputFile) :
    (merge_sarif_pure_python files).1.runs =
      if dedupFirst [] (allInputResults (sortFiles files)) = [] then []
      else [mergedRun files] := by
  unfold merge_sarif_pure_python mergedRun representativeTool
  rw [mergeState_spec]
  by_cases h : dedupFirst [] (allInputResults (sortFiles files)) = []
  · simp [h]
  · simp only [h, if_neg (by exact h), ne_eq, not_false_iff, if_true, List.map_map]
    have hid : (Prod.snd ∘ fun r : Rule => (r.id.getD "", r)) = id := rfl
    simp [h, hid]

lemma skippedFiles_merge (files : List InputFile) :
    (merge_sarif_pure_python files).2 =
      ((sortFiles files).filter (fun f => f.content.isNone)).map (fun f => f.name) := by
  unfold merge_sarif_pure_python
  rw [mergeState_spec]
  simp only
  induction sortFiles files with
  | nil => rfl
  | cons f l ih =>
    cases hc : f.content <;>
      simp [List.filterMap_cons, List.filter_cons, hc, ih, Option.isNone]

/-! ### Structural facts about the deduplication -/

lemma dedupFirst_sublist (seen : List DedupKey) (rs : List SarifResult) :
    List.Sublist (dedupFirst seen rs) rs := by
  induction rs generalizing seen with
  | nil => simp [dedupFirst]
  | cons r rs ih =>
    by_cases h : resultKey r ∈ seen
    · rw [dedupFirst_cons_mem _ _ _ h]
      exact (ih seen).cons r
    · rw [dedupFirst_cons_not_mem _ _ _ h]
      exact (ih _).cons₂ r

lemma keys_dedupFirst (seen : List DedupKey) (rs : List SarifResult) :
    ((dedupFirst seen rs).map resultKey).Nodup ∧
      ∀ k ∈ (dedupFirst seen rs).map resultKey, k ∉ seen := by
  induction rs generalizing seen with
  | nil => simp [dedupFirst]
  | cons r rs ih =>
    by_cases h : resultKey r ∈ seen
    · rw [dedupFirst_cons_mem _ _ _ h]
      exact ih seen
    · rw [dedupFirst_cons_not_mem _ _ _ h]
      obtain ⟨h1, h2⟩ := ih (resultKey r :: seen)
      refine ⟨?_, ?_⟩
      · simp only [List.map_cons, List.nodup_cons]
        exact ⟨fun hc => (h2 _ hc) (List.mem_cons_self _ _), h1⟩
      · intro k hk
        simp only [List.map_cons, List.mem_cons] at hk
        rcases hk with rfl | hk
        · exact h
        · exact fun hks => (h2 k hk) (List.mem_cons_of_mem _ hks)

lemma dedupFirst_eq_self (rs : List SarifResult) (seen : List DedupKey)
    (h1 : (rs.map resultKey).Nodup) (h2 : ∀ k ∈ rs.map resultKey, k ∉ seen) :
    dedupFirst seen rs = rs := by
  induction rs generalizing seen with
  | nil => rfl
  | cons r rs ih =>
    rw [List.map_cons, List.nodup_cons] at h1
    have hne : resultKey r ∉ seen := h2 _ (by simp)
    rw [dedupFirst_cons_not_mem _ _ _ hne]
    congr 1
    apply ih _ h1.2
    intro k hk hmem
    rcases List.mem_cons.mp hmem with rfl | hks
    · exact h1.1 hk
    · exact h2 k (List.mem_cons_of_mem _ hk) hks

/-! ### Facts about the file sort -/

instance : IsTotal InputFile (fun a b : InputFile => a.name ≤ b.name) :=
  ⟨fun a b => le_total a.name b.name⟩

instance : IsTrans InputFile (fun a b : InputFile => a.name ≤ b.name) :=
  ⟨fun _ _ _ hab hbc => le_trans hab hbc⟩

lemma sortFiles_sorted (files : List InputFile) :
    List.Sorted (fun a b : InputFile => a.name ≤ b.name) (sortFiles files) :=
  List.sorted_insertionSort _ files

lemma sortFiles_of_sorted {l : List InputFile}
    (h : List.Sorted (fun a b : InputFile => a.name ≤ b.name) l) : sortFiles l = l :=
  h.insertionSort_eq

lemma sortFiles_filter_sortFiles (p : InputFile → Bool) (files : List InputFile) :
    sortFiles ((sortFiles files).filter p) = (sortFiles files).filter p :=
  sortFiles_of_sorted ((sortFiles_sorted files).sublist (List.filter_sublist _))

lemma sortFiles_length (files : List InputFile) :
    (sortFiles files).length = files.length :=
  List.length_insertionSort _ files

lemma sortFiles_eq_nil_iff (files : List InputFile) : sortFiles files = [] ↔ files = [] := by
  rw [← List.length_eq_zero, ← List.length_eq_zero, sortFiles_length]

lemma sortFiles_singleton (f : InputFile) : sortFiles [f] = [f] := rfl

/-! ### Parse failures contribute nothing to the merged content -/

lemma allRuns_filter_isSome (l : List InputFile) :
    allRuns (l.filter (fun f => f.content.isSome)) = allRuns l := by
  induction l with
  | nil => rfl
  | cons f l ih =>
    cases hc : f.content <;>
      simp [allRuns, List.filter_cons, hc, Option.isSome, docRuns,
        allRuns] at ih ⊢ <;> simp [ih]

lemma allInputResults_eq_flatMap_allRuns (l : List InputFile) :
    allInputResults l = (allRuns l).flatMap (fun r => r.results) := by
  induction l with
  | nil => rfl
  | cons f l ih =>
    unfold allInputResults allRuns at ih ⊢
    simp only [List.flatMap_cons, List.flatMap_append, ih, docResults, allRuns]

lemma merge_doc_ignores_unparsable (files : List InputFile) :
    (merge_sarif_pure_python files).1 =
      (merge_sarif_pure_python ((sortFiles files).filter (fun f => f.content.isSome))).1 := by
  have h1 : allRuns (sortFiles ((sortFiles files).filter (fun f => f.content.isSome)))
      = allRuns (sortFiles files) := by
    rw [sortFiles_filter_sortFiles]
    exact allRuns_filter_isSome _
  have h2 : allRules (sortFiles ((sortFiles files).filter (fun f => f.content.isSome)))
      = allRules (sortFiles files) := by
    unfold allRules
    rw [h1]
  have h3 : allInputResults (sortFiles ((sortFiles files).filter (fun f => f.content.isSome)))
      = allInputResults (sortFiles files) := by
    rw [allInputResults_eq_flatMap_allRuns, allInputResults_eq_flatMap_allRuns, h1]
  unfold merge_sarif_pure_python
  rw [mergeState_spec, mergeState_spec, h1, h2, h3]

/-! ### Event-stream projections -/

lemma writesOf_nil : writesOf [] = [] := rfl

lemma writesOf_cons_err (m : String) (evs : List Event) :
    writesOf (Event.errMsg m :: evs) = writesOf evs := rfl

lemma writesOf_cons_out (m : String) (evs : List Event) :
    writesOf (Event.outMsg m :: evs) = writesOf evs := rfl

lemma writesOf_cons_mkdir (evs : List Event) :
    writesOf (Event.mkdirParent :: evs) = writesOf evs := rfl

lemma writesOf_cons_write (d : SarifDoc) (evs : List Event) :
    writesOf (Event.writeOutput d :: evs) = d :: writesOf evs := rfl

lemma writesOf_append (l1 l2 : List Event) :
    writesOf (l1 ++ l2) = writesOf l1 ++ writesOf l2 := by
  simp [writesOf, List.filterMap_append]

lemma stdoutOf_nil : stdoutOf [] = [] := rfl

lemma stdoutOf_cons_err (m : String) (evs : List Event) :
    stdoutOf (Event.errMsg m :: evs) = stdoutOf evs := rfl

lemma stdoutOf_cons_out (m : String) (evs : List Event) :
    stdoutOf (Event.outMsg m :: evs) = m :: stdoutOf evs := rfl

lemma stdoutOf_cons_mkdir (evs : List Event) :
    stdoutOf (Event.mkdirParent :: evs) = stdoutOf evs := rfl

lemma stdoutOf_cons_write (d : SarifDoc) (evs : List Event) :
    stdoutOf (Event.writeOutput d :: evs) = stdoutOf evs := rfl

lemma stdoutOf_append (l1 l2 : List Event) :
    stdoutOf (l1 ++ l2) = stdoutOf l1 ++ stdoutOf l2 := by
  simp [stdoutOf, List.filterMap_append]

lemma writesOf_errMsgs (l : List String) (f : String → String) :
    writesOf (l.map (fun x => Event.errMsg (f x))) = [] := by
  induction l with
  | nil => rfl
  | cons a l ih => rw [List.map_cons, writesOf_cons_err, ih]

lemma stdoutOf_errMsgs (l : List String) (f : String → String) :
    stdoutOf (l.map (fun x => Event.errMsg (f x))) = [] := by
  induction l with
  | nil => rfl
  | cons a l ih => rw [List.map_cons, stdoutOf_cons_err, ih]

lemma writesOf_probe (p : ProbeOutcome) : writesOf (has_sarif_multitool p).2 = [] := by
  cases p <;> rfl

lemma stdoutOf_probe (p : ProbeOutcome) : stdoutOf (has_sarif_multitool p).2 = [] := by
  cases p <;> rfl

lemma writesOf_mt (fs : List InputFile) (o : MtOutcome) :
    writesOf (merge_with_multitool fs o).2 = [] := by
  unfold merge_with_multitool
  cases h : fs.isEmpty <;> cases o <;> simp [h, writesOf]

lemma stdoutOf_mt (fs : List InputFile) (o : MtOutcome) :
    stdoutOf (merge_with_multitool fs o).2 = [] := by
  unfold merge_with_multitool
  cases h : fs.isEmpty <;> cases o <;> simp [h, stdoutOf]

lemma writesOf_pureMergeEvents (files : List InputFile) :
    writesOf (pureMergeEvents files) = [] := by
  unfold pureMergeEvents
  rw [writesOf_append, writesOf_errMsgs]
  cases h : (merge_sarif_pure_python files).2.isEmpty <;>
    simp [h, writesOf_cons_err, writesOf_errMsgs, writesOf_nil]

lemma stdoutOf_pureMergeEvents (files : List InputFile) :
    stdoutOf (pureMergeEvents files) = [] := by
  unfold pureMergeEvents
  rw [stdoutOf_append, stdoutOf_errMsgs]
  cases h : (merge_sarif_pure_python files).2.isEmpty <;>
    simp [h, stdoutOf_cons_err, stdoutOf_errMsgs, stdoutOf_nil]

lemma writesOf_match_success (x : Option SarifDoc) :
    writesOf (match x with
      | some _ => [Event.outMsg "SARIF Multitool merge successful"]
      | none => []) = [] := by
  cases x <;> rfl

lemma stdoutOf_match_success (x : Option SarifDoc) :
    ∀ m ∈ stdoutOf (match x with
      | some _ => [Event.outMsg "SARIF Multitool merge successful"]
      | none => []), m = "SARIF Multitool merge successful" := by
  cases x <;> simp [stdoutOf_cons_out, stdoutOf_nil]

lemma writesOf_toolPhase (e : Env) : writesOf (toolPhaseEvents e) = [] := by
  unfold toolPhaseEvents
  cases h : (has_sarif_multitool e.probe).1
  · simp [h, writesOf_nil]
  · simp only [h]
    rw [if_true, writesOf_cons_out, writesOf_append, writesOf_mt, List.nil_append,
      writesOf_match_success]

lemma stdoutOf_toolPhase_sub (e : Env) :
    ∀ m ∈ stdoutOf (toolPhaseEvents e),
      m = "Using SARIF Multitool for merge..." ∨ m = "SARIF Multitool merge successful" := by
  unfold toolPhaseEvents
  cases h : (has_sarif_multitool e.probe).1
  · simp [h, stdoutOf_nil]
  · simp only [h]
    rw [if_true, stdoutOf_cons_out]
    intro m hm
    rcases List.mem_cons.mp hm with rfl | hm2
    · exact Or.inl rfl
    · rw [stdoutOf_append, stdoutOf_mt, List.nil_append] at hm2
      exact Or.inr (stdoutOf_match_success _ m hm2)

lemma writesOf_pythonPhase (e : Env) : writesOf (pythonPhaseEvents e) = [] := by
  unfold pythonPhaseEvents
  cases hv : viaToolOf e <;>
    simp [hv, writesOf_cons_out, writesOf_pureMergeEvents, writesOf_nil]

lemma stdoutOf_pythonPhase_sub (e : Env) :
    ∀ m ∈ stdoutOf (pythonPhaseEvents e),
      m = "Using pure Python merge (SARIF Multitool not available or failed)" := by
  unfold pythonPhaseEvents
  cases hv : viaToolOf e <;>
    simp [hv, stdoutOf_cons_out, stdoutOf_pureMergeEvents, stdoutOf_nil]

lemma writesOf_successTrace (e : Env) : writesOf (successTrace e) = [mergedDocOf e] := by
  unfold successTrace
  rw [writesOf_append, writesOf_append, writesOf_append, writesOf_append]
  rw [writesOf_probe, writesOf_toolPhase, writesOf_pythonPhase]
  rfl

lemma stdoutOf_successTrace_sub (e : Env) :
    ∀ m ∈ stdoutOf (successTrace e), m ∈ progressMessages e := by
  unfold successTrace
  intro m hm
  rw [stdoutOf_append, stdoutOf_append, stdoutOf_append, stdoutOf_append,
    stdoutOf_probe] at hm
  simp only [stdoutOf_cons_out, stdoutOf_cons_mkdir, stdoutOf_cons_write, stdoutOf_nil,
    List.append_nil, List.nil_append, List.mem_append, List.mem_cons,
    List.not_mem_nil, or_false] at hm
  rcases hm with ((hm | hm) | hm) | (hm | hm)
  · rw [hm]; simp [progressMessages]
  · rcases stdoutOf_toolPhase_sub e m hm with h | h <;> rw [h] <;> simp [progressMessages]
  · rw [stdoutOf_pythonPhase_sub e m hm]; simp [progressMessages]
  · rw [hm]; simp [progressMessages]
  · rw [hm]; simp [progressMessages]

/-! ### The shape of `main` -/

lemma sortFiles_isEmpty_iff (files : List InputFile) :
    (sortFiles files).isEmpty = true ↔ files = [] := by
  rw [List.isEmpty_iff, sortFiles_eq_nil_iff]

lemma mainRun_cases (e : Env) :
    (e.argc ≠ 3 ∧
      mainRun e = (1, [Event.errMsg ("Usage: " ++ e.argv0 ++ " RAW_DIR OUTPUT_FILE")])) ∨
    (e.argc = 3 ∧ e.isDir = false ∧
      mainRun e = (1, [Event.errMsg ("Error: " ++ e.rawDir ++ " is not a directory")])) ∨
    (e.argc = 3 ∧ e.isDir = true ∧ e.files = [] ∧
      mainRun e = (1, [Event.outMsg (foundMsg e),
        Event.errMsg "No SARIF files found, nothing to merge"])) ∨
    (e.argc = 3 ∧ e.isDir = true ∧ e.files ≠ [] ∧ mainRun e = (0, successTrace e)) := by
  by_cases h1 : e.argc = 3
  · cases h2 : e.isDir
    · exact Or.inr (Or.inl ⟨h1, rfl, by simp [mainRun, h1, h2]⟩)
    · by_cases h3 : e.files = []
      · refine Or.inr (Or.inr (Or.inl ⟨h1, rfl, h3, ?_⟩))
        have he : (sortFiles e.files).isEmpty = true := (sortFiles_isEmpty_iff _).mpr h3
        simp [mainRun, h1, h2, he]
      · refine Or.inr (Or.inr (Or.inr ⟨h1, rfl, h3, ?_⟩))
        have he : ¬ (sortFiles e.files).isEmpty = true :=
          fun hc => h3 ((sortFiles_isEmpty_iff _).mp hc)
        simp [mainRun, h1, h2, he]
  · exact Or.inl ⟨h1, by simp [mainRun, h1]⟩

/-! ### Claim theorems -/

/-- C1: for every list of parsed input files, the built-in merger
deduplicates findings by the exact triple (rule identifier, location URI,
starting line) — `resultKey`, which takes the first listed location only
and uses the empty string / zero when the pieces are absent: the merged
finding list is exactly the first-occurrence-wins filter `dedupFirst` on
those triples over the findings in processing order.  Hence two findings
with an identical triple but differing unrelated payload fields are merged
to one, the retained copy being the first encountered, and the retained
triples are pairwise distinct. -/
theorem c1_dedup_by_triple_first_wins (files : List InputFile) :
    mergedFindings (merge_sarif_pure_python files).1 =
      dedupFirst [] (allInputResults (sortFiles files)) ∧
    ((mergedFindings (merge_sarif_pure_python files).1).map resultKey).Nodup := by
  refine ⟨mergedFindings_merge files, ?_⟩
  rw [mergedFindings_merge files]
  exact (keys_dedupFirst [] _).1

/-- C2: if at least one finding is retained the merger emits exactly one
run, combining the representative tool descriptor (the first encountered
across runs, or the placeholder if none found) with its rule list replaced
by the deduplicated rule set and its results set to the deduplicated,
order-preserved finding list; with zero retained findings it emits zero
runs. -/
theorem c2_single_run_emission (files : List InputFile) :
    (merge_sarif_pure_python files).1.runs =
      if dedupFirst [] (allInputResults (sortFiles files)) = [] then []
      else
        [{ tool := some { representativeTool files with
             driver := { (representativeTool files).driver with
               rules := dedupRules [] (allRules (sortFiles files)) } },
           results := dedupFirst [] (allInputResults (sortFiles files)),
           payload := "" }] := by
  rw [runs_merge]
  rfl

/-- C3 counterexample: a rule definition whose identifier key is absent
(so `rule.get("id", "")` yields `""`) is encountered first — its
identifier has not been seen before — yet it is not retained: the merged
rule set stays empty, both in the accumulating dictionary and in the
emitted run.  This falsifies the claim as stated for empty identifiers. -/
theorem c3_counterexample :
    allRules (sortFiles [fileRuleNoId]) = [ruleNoId] ∧
    (mergeState [fileRuleNoId]).seenRules = [] ∧
    mergedRuleList (merge_sarif_pure_python [fileRuleNoId]).1 = [] := by
  refine ⟨by decide, by decide, by decide⟩

/-- C3 amended: for every rule definition encountered within a run's
descriptor section, it is retained in the merged rule set exactly when its
identifier is nonempty and has not been seen before; rules with an empty
or missing identifier are always discarded, and later duplicates of a
retained identifier are discarded regardless of content (first wins): the
retained rule list is exactly `dedupRules` over the rules in processing
order. -/
theorem c3_rule_first_wins_amended (files : List InputFile) :
    (mergeState files).seenRules.map Prod.snd =
      dedupRules [] (allRules (sortFiles files)) ∧
    mergedRuleList (merge_sarif_pure_python files).1 =
      (if dedupFirst [] (allInputResults (sortFiles files)) = [] then []
       else dedupRules [] (allRules (sortFiles files))) := by
  constructor
  · rw [mergeState_spec]
    simp only [List.map_map]
    have hid : (Prod.snd ∘ fun r : Rule => (r.id.getD "", r)) = id := rfl
    rw [hid, List.map_id]
  · unfold mergedRuleList
    rw [runs_merge]
    by_cases h : dedupFirst [] (allInputResults (sortFiles files)) = []
    · simp [h]
    · simp [h, mergedRun, runRules]

/-- C6: merging a set of files and then merging the resulting document
again as the sole input yields an identical finding set — nothing is lost
and no further deduplication occurs. -/
theorem c6_merge_idempotent (files : List InputFile) (n : String) :
    mergedFindings (merge_sarif_pure_python
      [{ name := n, content := some (merge_sarif_pure_python files).1 }]).1 =
    mergedFindings (merge_sarif_pure_python files).1 := by
  rw [mergedFindings_merge, mergedFindings_merge, sortFiles_singleton]
  have h1 : allInputResults
      [{ name := n, content := some (merge_sarif_pure_python files).1 }] =
      mergedFindings (merge_sarif_pure_python files).1 := by
    simp [allInputResults, docResults, docRuns, mergedFindings]
  rw [h1, mergedFindings_merge]
  apply dedupFirst_eq_self
  · exact (keys_dedupFirst [] _).1
  · intro k hk
    simp

/-- C5: findings appear in the merged output in the order the inputs are
processed (inputs sorted lexicographically by name) and, within a file, in
the order they appear in that file's runs: the merged finding list is a
sublist of the concatenated input findings in sorted processing order;
moreover for two files A before B lexicographically (in either argument
order), the output splits as retained-A-findings followed by
retained-B-findings, each part preserving its file's order. -/
theorem c5_order_preservation :
    (∀ files : List InputFile,
        List.Sublist (mergedFindings (merge_sarif_pure_python files).1)
          (allInputResults (sortFiles files))) ∧
    (∀ A B : InputFile, A.name < B.name →
        sortFiles [A, B] = [A, B] ∧ sortFiles [B, A] = [A, B] ∧
        ∃ LA LB, mergedFindings (merge_sarif_pure_python [B, A]).1 = LA ++ LB ∧
          List.Sublist LA (docResults A) ∧ List.Sublist LB (docResults B)) := by
  constructor
  · intro files
    rw [mergedFindings_merge]
    exact dedupFirst_sublist [] _
  · intro A B hlt
    have hab : sortFiles [A, B] = [A, B] := by
      simp [sortFiles, le_of_lt hlt]
    have hba : sortFiles [B, A] = [A, B] := by
      simp [sortFiles, not_le.mpr hlt]
    refine ⟨hab, hba, ?_⟩
    rw [mergedFindings_merge, hba]
    have hsplit : allInputResults [A, B] = docResults A ++ docResults B := by
      simp [allInputResults]
    rw [hsplit, dedupFirst_append]
    exact ⟨_, _, rfl, dedupFirst_sublist _ _, dedupFirst_sublist _ _⟩

/-- Witness for C5 at two concrete files with `"a.sarif" < "b.sarif"`. -/
theorem c5_order_preservation_witness :
    sortFiles [fileA, fileB] = [fileA, fileB] ∧
    sortFiles [fileB, fileA] = [fileA, fileB] ∧
    ∃ LA LB, mergedFindings (merge_sarif_pure_python [fileB, fileA]).1 = LA ++ LB ∧
      List.Sublist LA (docResults fileA) ∧ List.Sublist LB (docResults fileB) :=
  c5_order_preservation.2 fileA fileB (by rw [String.lt_iff_toList_lt]; decide)

/-- C10: the merged document always carries the fixed version tag and
schema reference, regardless of the tags in any input document. -/
theorem c10_fixed_version_and_schema (files : List InputFile) :
    (merge_sarif_pure_python files).1.version = "2.1.0" ∧
    (merge_sarif_pure_python files).1.schema =
      "https://json.schemastore.org/sarif-2.1.0.json" :=
  ⟨rfl, rfl⟩

/-- C4: an input file that fails to parse is recorded as skipped (in
sorted processing order) and processing continues: the merged document
equals the one obtained from the successfully parsed files alone, so it
contains exactly their findings; and every well-formed invocation (right
argument count, existing directory, at least one matching file) still
exits 0, parse failures notwithstanding. -/
theorem c4_parse_failure_isolation :
    (∀ files : List InputFile,
        (merge_sarif_pure_python files).2 =
          ((sortFiles files).filter (fun f => f.content.isNone)).map (fun f => f.name) ∧
        (merge_sarif_pure_python files).1 =
          (merge_sarif_pure_python
            ((sortFiles files).filter (fun f => f.content.isSome))).1) ∧
    (∀ e : Env, e.argc = 3 → e.isDir = true → e.files ≠ [] → (mainRun e).1 = 0) := by
  constructor
  · intro files
    exact ⟨skippedFiles_merge files, merge_doc_ignores_unparsable files⟩
  · intro e h1 h2 h3
    rcases mainRun_cases e with ⟨ha, hm⟩ | ⟨ha, hb, hm⟩ | ⟨ha, hb, hc, hm⟩ | ⟨ha, hb, hc, hm⟩
    · exact absurd h1 ha
    · rw [h2] at hb
      exact Bool.noConfusion hb
    · exact absurd hc h3
    · rw [hm]

/-- Witness for C4: one corrupted file among one parsable file — the
corrupted one is recorded as skipped, and the command exits 0. -/
theorem c4_parse_failure_isolation_witness :
    (merge_sarif_pure_python [fileBad, fileA]).2 = ["bad.sarif"] ∧
    (mainRun envMixed).1 = 0 := by
  constructor
  · rw [(c4_parse_failure_isolation.1 [fileBad, fileA]).1]
    rw [show sortFiles [fileBad, fileA] = [fileA, fileBad] from by
      have hlt : fileA.name < fileBad.name := by
        rw [String.lt_iff_toList_lt]; decide
      simp [sortFiles, not_le.mpr hlt]]
    decide
  · exact c4_parse_failure_isolation.2 envMixed rfl rfl (by decide)

/-- C7: the command exits 1 exactly when the argument count is wrong, the
input path is not a directory, or zero matching input files are found —
and in each of these fatal cases nothing is written to the output path; in
every other case it exits 0 (writing the merged document once). -/
theorem c7_exit_codes (e : Env) :
    (mainRun e).1 = (if e.argc ≠ 3 ∨ e.isDir = false ∨ e.files = [] then 1 else 0) ∧
    writesOf (mainRun e).2 =
      (if e.argc ≠ 3 ∨ e.isDir = false ∨ e.files = [] then [] else [mergedDocOf e]) := by
  rcases mainRun_cases e with ⟨h1, hm⟩ | ⟨h1, h2, hm⟩ | ⟨h1, h2, h3, hm⟩ | ⟨h1, h2, h3, hm⟩
  · rw [hm, if_pos (Or.inl h1), if_pos (Or.inl h1)]
    exact ⟨rfl, rfl⟩
  · rw [hm, if_pos (Or.inr (Or.inl h2)), if_pos (Or.inr (Or.inl h2))]
    exact ⟨rfl, rfl⟩
  · rw [hm, if_pos (Or.inr (Or.inr h3)), if_pos (Or.inr (Or.inr h3))]
    exact ⟨rfl, rfl⟩
  · have hcond : ¬(e.argc ≠ 3 ∨ e.isDir = false ∨ e.files = []) := by
      rintro (h | h | h)
      · exact h h1
      · rw [h2] at h
        exact Bool.noConfusion h
      · exact h3 h
    rw [hm, if_neg hcond, if_neg hcond]
    exact ⟨rfl, writesOf_successTrace e⟩

/-- C8 counterexample: at a concrete well-formed invocation the standard
output stream is nonempty (the file-count, strategy and summary messages
are printed with a plain `print`), so not every diagnostic or progress
message goes to the error stream. -/
theorem c8_counterexample : stdoutOf (mainRun envStdout).2 ≠ [] := by decide

/-- C8 amended: error and warning diagnostics go to the error stream while
the progress messages (file count, strategy choice, multitool success,
finding count, written-path notice) go to standard output — everything on
stdout is one of those progress messages — and only the final merged
document is ever written to the designated output path. -/
theorem c8_stdout_progress_only (e : Env) :
    (∀ m ∈ stdoutOf (mainRun e).2, m ∈ progressMessages e) ∧
    writesOf (mainRun e).2 =
      (if e.argc ≠ 3 ∨ e.isDir = false ∨ e.files = [] then [] else [mergedDocOf e]) := by
  rcases mainRun_cases e with ⟨h1, hm⟩ | ⟨h1, h2, hm⟩ | ⟨h1, h2, h3, hm⟩ | ⟨h1, h2, h3, hm⟩
  · rw [hm, if_pos (Or.inl h1)]
    exact ⟨by intro m hmem; exact absurd hmem (by simp [stdoutOf]), rfl⟩
  · rw [hm, if_pos (Or.inr (Or.inl h2))]
    exact ⟨by intro m hmem; exact absurd hmem (by simp [stdoutOf]), rfl⟩
  · rw [hm, if_pos (Or.inr (Or.inr h3))]
    refine ⟨?_, rfl⟩
    intro m hmem
    rw [show stdoutOf [Event.outMsg (foundMsg e),
        Event.errMsg "No SARIF files found, nothing to merge"] = [foundMsg e] from rfl] at hmem
    rcases List.mem_singleton.mp hmem with rfl
    simp [progressMessages]
  · have hcond : ¬(e.argc ≠ 3 ∨ e.isDir = false ∨ e.files = []) := by
      rintro (h | h | h)
      · exact h h1
      · rw [h2] at h
        exact Bool.noConfusion h
      · exact h3 h
    rw [hm, if_neg hcond]
    exact ⟨stdoutOf_successTrace_sub e, writesOf_successTrace e⟩

/-- Witness for C8 amended at a concrete fallback invocation. -/
theorem c8_stdout_progress_only_witness :
    ("Written to results/results.sarif" ∈ progressMessages envFallback) ∧
    writesOf (mainRun envFallback).2 = [mergedDocOf envFallback] := by
  constructor
  · exact (c8_stdout_progress_only envFallback).1 _ (by decide)
  · have h := (c8_stdout_progress_only envFallback).2
    rw [if_neg (by decide)] at h
    exact h

/-- C9: on every successful invocation the parent directory of the output
path is ensured first, then the total finding count across all runs of the
merged document is reported, and then the document is written — exactly
once, and nothing else is ever written to the output path; on a fatal exit
nothing is written at all. -/
theorem c9_writer_contract (e : Env) :
    ((mainRun e).1 = 0 →
      writesOf (mainRun e).2 = [mergedDocOf e] ∧
      List.Sublist [Event.mkdirParent, Event.outMsg (countMsgOf e),
        Event.writeOutput (mergedDocOf e)] (mainRun e).2) ∧
    ((mainRun e).1 ≠ 0 → writesOf (mainRun e).2 = []) := by
  rcases mainRun_cases e with ⟨h1, hm⟩ | ⟨h1, h2, hm⟩ | ⟨h1, h2, h3, hm⟩ | ⟨h1, h2, h3, hm⟩
  · rw [hm]
    exact ⟨fun hc => by simp at hc, fun _ => rfl⟩
  · rw [hm]
    exact ⟨fun hc => by simp at hc, fun _ => rfl⟩
  · rw [hm]
    exact ⟨fun hc => by simp at hc, fun _ => rfl⟩
  · rw [hm]
    constructor
    · intro _
      refine ⟨writesOf_successTrace e, ?_⟩
      show List.Sublist _ (successTrace e)
      unfold successTrace
      simp only [List.append_assoc, List.cons_append, List.nil_append]
      have htail : List.Sublist
          [Event.outMsg (countMsgOf e), Event.writeOutput (mergedDocOf e)]
          [Event.outMsg (countMsgOf e), Event.writeOutput (mergedDocOf e),
           Event.outMsg ("Written to " ++ e.outputFile)] :=
        (List.nil_sublist _).cons₂ _ |>.cons₂ _
      have hrest : List.Sublist
          [Event.outMsg (countMsgOf e), Event.writeOutput (mergedDocOf e)]
          ((has_sarif_multitool e.probe).2 ++ (toolPhaseEvents e ++ (pythonPhaseEvents e ++
            [Event.outMsg (countMsgOf e), Event.writeOutput (mergedDocOf e),
             Event.outMsg ("Written to " ++ e.outputFile)]))) :=
        ((htail.trans (List.sublist_append_right _ _)).trans
          (List.sublist_append_right _ _)).trans (List.sublist_append_right _ _)
      exact (hrest.cons₂ _).cons _
    · intro hc
      exact absurd rfl hc

/-- Witness for C9 at a concrete fallback invocation. -/
theorem c9_writer_contract_witness :
    writesOf (mainRun envFallback).2 = [mergedDocOf envFallback] ∧
    List.Sublist [Event.mkdirParent, Event.outMsg (countMsgOf envFallback),
      Event.writeOutput (mergedDocOf envFallback)] (mainRun envFallback).2 :=
  (c9_writer_contract envFallback).1 (by decide)
